import Mathlib

/-!
# Verification of the long-context document-analysis client

Shallow embedding of `document_longcontext_idp.ipynb`: the message-building
cells (`messages[0]['content'].append`), the blocking `converse` extraction
(`content_text`), the `converse_stream` event loop, the retry configuration,
and the report file-name derivation.
-/

namespace Nova

/-- Error taxonomy of the spec (§7). The notebook surfaces Python exceptions;
these constructors classify them per the taxonomy. -/
inductive Err where
  | validationError
  | transportError
  | providerError
  | malformedResponseError
deriving DecidableEq, Repr

/-! ## ConversationBuilder data model -/

/-- A binary document attachment, as assembled in the report-download cell:
`{"document": {"name": file_name, "format": "pdf", "source": {"bytes": pdf_file_object}}}`. -/
structure DocumentAttachment where
  name : List Char
  format : String
  bytes : List Nat
deriving DecidableEq, Repr

/-- One element of `messages[0]['content']`: either `{"text": ...}` or
`{"document": ...}`. -/
inductive ContentBlock where
  | text (s : String)
  | document (d : DocumentAttachment)
deriving DecidableEq, Repr

/-- One element of `messages`: `{"role": ..., "content": [...]}`. -/
structure ConversationTurn where
  role : String
  content : List ContentBlock
deriving DecidableEq, Repr

/-- `messages = [{"role": "user", "content": []}]`: a turn starts empty. -/
def createTurn (role : String) : ConversationTurn :=
  { role := role, content := [] }

/-- `messages[0]['content'].append(query)` with `query = {"text": ...}`. -/
def appendText (t : ConversationTurn) (s : String) : ConversationTurn :=
  { t with content := t.content ++ [ContentBlock.text s] }

/-- `messages[0]['content'].append(obj)` with `obj` a document block. -/
def appendDocument (t : ConversationTurn) (name : List Char) (format : String)
    (bytes : List Nat) : ConversationTurn :=
  { t with content := t.content ++ [ContentBlock.document ⟨name, format, bytes⟩] }

/-- One builder call, for reasoning about arbitrary call sequences. -/
inductive AppendCall where
  | text (s : String)
  | document (name : List Char) (format : String) (bytes : List Nat)
deriving DecidableEq, Repr

/-- The content block a single call appends. -/
def AppendCall.block : AppendCall → ContentBlock
  | .text s => ContentBlock.text s
  | .document n f b => ContentBlock.document ⟨n, f, b⟩

/-- Replay a sequence of builder calls on a turn. -/
def applyCalls (t : ConversationTurn) : List AppendCall → ConversationTurn
  | [] => t
  | c :: cs =>
    match c with
    | .text s => applyCalls (appendText t s) cs
    | .document n f b => applyCalls (appendDocument t n f b) cs

/-- Modelled from the spec: the notebook appends documents without checking
them (the remote provider rejects bad payloads), so the validating
`appendDocument` of §4.1 is absent from the source. Per the spec, empty
`bytes` or an unrecognized `format` fail with a `ValidationError`; otherwise
the block is appended unchanged. -/
def recognizedFormats : List String :=
  ["pdf", "csv", "doc", "docx", "xls", "xlsx", "html", "txt", "md"]

/-- Modelled from the spec: validating variant of `appendDocument` (§4.1). -/
def appendDocumentChecked (t : ConversationTurn) (name : List Char)
    (format : String) (bytes : List Nat) : Except Err ConversationTurn :=
  if bytes = [] then Except.error Err.validationError
  else if format ∉ recognizedFormats then Except.error Err.validationError
  else Except.ok (appendDocument t name format bytes)

/-! ## Report file-name derivation -/

/-- Python `str.split(sep)` for a one-character separator, on the character
list of the string: splits at every occurrence, keeping empty pieces, and
returns at least one piece. -/
def splitOnChar (sep : Char) : List Char → List (List Char)
  | [] => [[]]
  | c :: cs =>
    if c = sep then [] :: splitOnChar sep cs
    else
      match splitOnChar sep cs with
      | [] => [[c]]
      | r :: rs => (c :: r) :: rs

/-- `file_name = report_url.split("/")[-1].split('.')[0]`. -/
def fileName (url : List Char) : List Char :=
  ((splitOnChar '/' url).getLastD []  |> splitOnChar '.').headD []

/-- The document block built for one report URL in the download loop. -/
def reportBlock (url : List Char) (contentBytes : List Nat) : ContentBlock :=
  ContentBlock.document ⟨fileName url, "pdf", contentBytes⟩

/-! ## ResponseConsumer: blocking path -/

/-- One element of `model_response["output"]["message"]["content"]`: a dict
that either has a `"text"` key or does not (an image or other block kind). -/
inductive RespContentBlock where
  | text (s : String)
  | nonText
deriving DecidableEq, Repr

/-- The part of a `converse` provider response the notebook reads:
`model_response["output"]["message"]["content"]`. -/
structure ProviderResponse where
  content : List RespContentBlock
deriving DecidableEq, Repr

/-- `content_text = model_response["output"]["message"]["content"][0]["text"]`.
On an empty content array Python raises `IndexError`, and on a first block
without a `"text"` key it raises `KeyError`; both are failures, classified in
the spec taxonomy as `MalformedResponseError`, never a silent empty string. -/
def content_text (resp : ProviderResponse) : Except Err String :=
  match resp.content with
  | [] => Except.error Err.malformedResponseError
  | RespContentBlock.text s :: _ => Except.ok s
  | RespContentBlock.nonText :: _ => Except.error Err.malformedResponseError

/-- `inf_params = {"maxTokens": 10000, "topP": 0.1, "temperature": 0.1}`;
the values are carried, never computed on. -/
structure InferenceConfig where
  maxTokens : Nat
  topP : Rat
  temperature : Rat
deriving DecidableEq, Repr

/-- The request body assembled by `client.converse(modelId=..., system=...,
messages=messages, inferenceConfig=...)`. -/
structure ConverseRequest where
  modelId : String
  system : List String
  messages : List ConversationTurn
  inferenceConfig : InferenceConfig
deriving DecidableEq, Repr

/-- Build the request the notebook sends: `messages = [turn]`. Reads the turn
without modifying it. -/
def buildConverseRequest (modelId : String) (system : List String)
    (turn : ConversationTurn) (cfg : InferenceConfig) : ConverseRequest :=
  { modelId := modelId, system := system, messages := [turn], inferenceConfig := cfg }

/-- The blocking call as a transformer on the conversation state: it sends
the request built from the turn, extracts `content_text` from the provider's
response, and hands the turn back unchanged — the notebook's `converse` call
never writes to `messages`. -/
def requestOnce (turn : ConversationTurn) (resp : ProviderResponse) :
    Except Err String × ConversationTurn :=
  (content_text resp, turn)

/-! ## ResponseConsumer: streaming path -/

/-- `metadata['usage']` fields read by the loop. -/
structure TokenUsage where
  inputTokens : Nat
  outputTokens : Nat
  totalTokens : Nat
deriving DecidableEq, Repr

/-- `metadata['metrics']` field read by the loop. -/
structure Metrics where
  latencyMs : Nat
deriving DecidableEq, Repr

/-- The `metadata` dict: `usage` and `metrics` keys may each be absent
(the loop guards with `if 'usage' in metadata` and `if 'metrics' in ...`). -/
structure MetadataPayload where
  usage : Option TokenUsage
  metrics : Option Metrics
deriving DecidableEq, Repr

/-- One event of the `converse_stream` event stream, as the loop sees it: a
dict that may carry any subset of the four recognized keys, each tested
independently with `if 'key' in event`. -/
structure Event where
  messageStart : Option String
  contentBlockDelta : Option String
  messageStop : Option String
  metadata : Option MetadataPayload
deriving DecidableEq, Repr

/-- An event carrying exactly the `messageStart` key. -/
def Event.start (role : String) : Event := ⟨some role, none, none, none⟩

/-- An event carrying exactly the `contentBlockDelta` key. -/
def Event.delta (text : String) : Event := ⟨none, some text, none, none⟩

/-- An event carrying exactly the `messageStop` key. -/
def Event.stop (reason : String) : Event := ⟨none, none, some reason, none⟩

/-- An event carrying exactly the `metadata` key. -/
def Event.meta (m : MetadataPayload) : Event := ⟨none, none, none, some m⟩

/-- What one iteration of the loop prints, with the values it interpolates. -/
inductive Output where
  | role (r : String)
  | delta (t : String)
  | stop (r : String)
  | usage (inputTokens outputTokens totalTokens : Nat)
  | latency (ms : Nat)
deriving DecidableEq, Repr

/-- The `if 'metadata' in event` branch: prints token usage when `usage` is
present, then latency when `metrics` is present; absent keys are skipped. -/
def processMetadata (m : MetadataPayload) : List Output :=
  (match m.usage with
   | some u => [Output.usage u.inputTokens u.outputTokens u.totalTokens]
   | none => [])
  ++ (match m.metrics with
      | some mt => [Output.latency mt.latencyMs]
      | none => [])

/-- One iteration of `for event in stream`: four independent, non-exclusive
`if 'key' in event` checks, in the source's fixed order. -/
def processEvent (e : Event) : List Output :=
  (match e.messageStart with | some r => [Output.role r] | none => [])
  ++ (match e.contentBlockDelta with | some t => [Output.delta t] | none => [])
  ++ (match e.messageStop with | some s => [Output.stop s] | none => [])
  ++ (match e.metadata with | some m => processMetadata m | none => [])

/-- The whole loop over a finite delivered event sequence, in arrival order. -/
def consumeStream : List Event → List Output
  | [] => []
  | e :: es => processEvent e ++ consumeStream es

/-- Selects a printed delta text. -/
def deltaOf : Output → Option String
  | Output.delta t => some t
  | _ => none

/-- Selects a printed stop reason. -/
def stopOf : Output → Option String
  | Output.stop r => some r
  | _ => none

/-- Selects a printed token-usage triple. -/
def usageOf : Output → Option (Nat × Nat × Nat)
  | Output.usage a b c => some (a, b, c)
  | _ => none

/-- Selects a printed latency. -/
def latencyOf : Output → Option Nat
  | Output.latency ms => some ms
  | _ => none

/-- The delta texts the consumer printed, in print order. -/
def emittedTexts (evs : List Event) : List String :=
  (consumeStream evs).filterMap deltaOf

/-- The stop reasons the consumer printed, in print order. -/
def stopRecords (evs : List Event) : List String :=
  (consumeStream evs).filterMap stopOf

/-- The token-usage triples the consumer printed, in print order. -/
def usageRecords (evs : List Event) : List (Nat × Nat × Nat) :=
  (consumeStream evs).filterMap usageOf

/-- The latencies the consumer printed, in print order. -/
def latencyRecords (evs : List Event) : List Nat :=
  (consumeStream evs).filterMap latencyOf

/-- Whether some delivered event carried a `messageStop` key. -/
def sawStop (evs : List Event) : Bool :=
  evs.any fun e => e.messageStop.isSome

/-- Modelled from the spec: end-of-stream handling lives in the transport
layer the notebook delegates to, not in the loop itself. Per §4.2, when the
transport closes after delivering `evs` without any `MessageStop`, the
consumer surfaces a `TransportError` next to everything already printed;
nothing printed is discarded. -/
def consumeClosedStream (evs : List Event) : List Output × Option Err :=
  (consumeStream evs,
   if sawStop evs then none else some Err.transportError)

/-! ## Retry configuration -/

/-- `Config(retries={'max_attempts': 1})`. -/
structure RetryConfig where
  maxAttempts : Nat
deriving DecidableEq, Repr

/-- The notebook's client configuration: a single attempt. -/
def clientConfig : RetryConfig := { maxAttempts := 1 }

/-- Modelled from the spec: the retry loop executes inside the external
client library, driven by `max_attempts`; per §7 the core performs the
attempts the configuration allows and surfaces the last error unchanged.
`attempt i` is the outcome of the i-th transmission; returns the first
success (or the last error) together with the number of attempts made. -/
def runAttempts (attempt : Nat → Except Err ProviderResponse) :
    Nat → Nat → Except Err ProviderResponse × Nat
  | _, 0 => (Except.error Err.transportError, 0)
  | i, 1 => (attempt i, 1)
  | i, n + 2 =>
    match attempt i with
    | Except.ok r => (Except.ok r, 1)
    | Except.error _ =>
      let (res, k) := runAttempts attempt (i + 1) (n + 1)
      (res, k + 1)

/-- One request through the configured client. -/
def executeRequest (cfg : RetryConfig)
    (attempt : Nat → Except Err ProviderResponse) :
    Except Err ProviderResponse × Nat :=
  runAttempts attempt 0 cfg.maxAttempts

/-! ## Helper lemmas -/

theorem consumeStream_append (xs ys : List Event) :
    consumeStream (xs ++ ys) = consumeStream xs ++ consumeStream ys := by
  induction xs with
  | nil => simp [consumeStream]
  | cons e es ih => simp [consumeStream, ih]

theorem deltaOf_processMetadata (m : MetadataPayload) :
    (processMetadata m).filterMap deltaOf = [] := by
  rcases m with ⟨u, mt⟩
  cases u <;> cases mt <;> simp [processMetadata, deltaOf]

theorem stopOf_processMetadata (m : MetadataPayload) :
    (processMetadata m).filterMap stopOf = [] := by
  rcases m with ⟨u, mt⟩
  cases u <;> cases mt <;> simp [processMetadata, stopOf]

theorem deltaOf_processEvent (e : Event) :
    (processEvent e).filterMap deltaOf = e.contentBlockDelta.toList := by
  rcases e with ⟨ms, cd, mstop, md⟩
  cases ms <;> cases cd <;> cases mstop <;> cases md <;>
    simp [processEvent, deltaOf, deltaOf_processMetadata]

theorem emittedTexts_eq (evs : List Event) :
    emittedTexts evs = evs.filterMap Event.contentBlockDelta := by
  induction evs with
  | nil => simp [emittedTexts, consumeStream]
  | cons e es ih =>
    simp only [emittedTexts, consumeStream, List.filterMap_append] at *
    rw [deltaOf_processEvent, ih]
    cases h : e.contentBlockDelta <;> simp [List.filterMap_cons, h]

theorem processEvent_meta (m : MetadataPayload) :
    processEvent (Event.meta m) = processMetadata m := by
  simp [processEvent, Event.meta]

theorem processEvent_stopEvent (s : String) :
    processEvent (Event.stop s) = [Output.stop s] := by
  simp [processEvent, Event.stop]

theorem applyCalls_content (t : ConversationTurn) (cs : List AppendCall) :
    (applyCalls t cs).content = t.content ++ cs.map AppendCall.block ∧
    (applyCalls t cs).role = t.role := by
  induction cs generalizing t with
  | nil => simp [applyCalls]
  | cons c cs ih =>
    cases c with
    | text s =>
      have h := ih (appendText t s)
      simpa [applyCalls, appendText, AppendCall.block] using h
    | document n f b =>
      have h := ih (appendDocument t n f b)
      simpa [applyCalls, appendDocument, AppendCall.block] using h

theorem splitOnChar_ne_nil (sep : Char) (s : List Char) :
    splitOnChar sep s ≠ [] := by
  cases s with
  | nil => simp [splitOnChar]
  | cons c cs =>
    by_cases h : c = sep
    · simp [splitOnChar, h]
    · simp only [splitOnChar, if_neg h]
      cases splitOnChar sep cs <;> simp

theorem splitOnChar_headD (sep : Char) (s : List Char) :
    (splitOnChar sep s).headD [] = s.takeWhile (fun c => c ≠ sep) := by
  induction s with
  | nil => simp [splitOnChar]
  | cons c cs ih =>
    by_cases h : c = sep
    · simp [splitOnChar, h, List.takeWhile_cons]
    · simp only [splitOnChar, if_neg h]
      cases hs : splitOnChar sep cs with
      | nil => exact absurd hs (splitOnChar_ne_nil sep cs)
      | cons r rs =>
        rw [hs] at ih
        simp only [List.headD_cons] at ih ⊢
        simp [List.takeWhile_cons, h, ih]

/-! ## Claims -/

/-- The event sequence of the spec's streaming example. -/
def exampleEvents : List Event :=
  [Event.start "assistant", Event.delta "Hel", Event.delta "lo",
   Event.stop "end_turn"]

/-- C1: for every finite event sequence, the consumer emits the text of each
`ContentDelta` exactly once in arrival order; on the example sequence the
emitted texts are "Hel" then "lo", the recorded stop reason is "end_turn",
and the concatenation of the deltas is "Hello". -/
theorem deltas_emitted_once_in_order :
    (∀ evs : List Event,
      emittedTexts evs = evs.filterMap Event.contentBlockDelta)
    ∧ emittedTexts exampleEvents = ["Hel", "lo"]
    ∧ stopRecords exampleEvents = ["end_turn"]
    ∧ String.join (emittedTexts exampleEvents) = "Hello" := by
  refine ⟨emittedTexts_eq, by decide, by decide, by decide⟩

/-- C2: the blocking call returns the text of the first content block of the
response (`["text": "Hello"]` yields `"Hello"`); an empty content array or a
non-text first block fails with `MalformedResponseError`, never yielding an
empty string. -/
theorem content_text_first_block :
    (∀ (s : String) (rest : List RespContentBlock),
      content_text ⟨RespContentBlock.text s :: rest⟩ = Except.ok s)
    ∧ content_text ⟨[RespContentBlock.text "Hello"]⟩ = Except.ok "Hello"
    ∧ content_text ⟨[]⟩ = Except.error Err.malformedResponseError
    ∧ (∀ rest : List RespContentBlock,
      content_text ⟨RespContentBlock.nonText :: rest⟩
        = Except.error Err.malformedResponseError) := by
  refine ⟨fun s rest => rfl, rfl, rfl, fun rest => rfl⟩

/-- C3: starting from an empty turn, any sequence of `appendText` /
`appendDocument` calls yields a content sequence equal to the appended blocks
in call order; no call edits, deletes, or reorders earlier blocks. -/
theorem builder_append_only_fifo :
    ∀ (role : String) (calls : List AppendCall),
      (applyCalls (createTurn role) calls).content = calls.map AppendCall.block := by
  intro role calls
  simpa [createTurn] using (applyCalls_content (createTurn role) calls).1

/-- C4: `appendDocument` with empty bytes or an unrecognized format fails
with `ValidationError`; with non-empty bytes and a recognized format it
succeeds and stores the document with its bytes unchanged, byte for byte. -/
theorem appendDocument_validation :
    (∀ (t : ConversationTurn) (n : List Char) (f : String),
      appendDocumentChecked t n f [] = Except.error Err.validationError)
    ∧ (∀ (t : ConversationTurn) (n : List Char) (f : String) (b : List Nat),
      f ∉ recognizedFormats →
      appendDocumentChecked t n f b = Except.error Err.validationError)
    ∧ (∀ (t : ConversationTurn) (n : List Char) (f : String) (b : List Nat),
      b ≠ [] → f ∈ recognizedFormats →
      appendDocumentChecked t n f b
        = Except.ok { t with content := t.content ++ [ContentBlock.document ⟨n, f, b⟩] }) := by
  refine ⟨fun t n f => by simp [appendDocumentChecked], ?_, ?_⟩
  · intro t n f b hf
    by_cases hb : b = [] <;> simp [appendDocumentChecked, hb, hf]
  · intro t n f b hb hf
    simp [appendDocumentChecked, hb, hf, appendDocument]

/-- Witness for C4 at concrete inputs. -/
theorem appendDocument_validation_witness :
    appendDocumentChecked (createTurn "user") ['r'] "pdf" [1, 2]
      = Except.ok { role := "user",
                    content := [ContentBlock.document ⟨['r'], "pdf", [1, 2]⟩] }
    ∧ appendDocumentChecked (createTurn "user") ['r'] "exe" [1]
      = Except.error Err.validationError := by
  constructor
  · have h := appendDocument_validation.2.2 (createTurn "user") ['r'] "pdf" [1, 2]
      (by decide) (by decide)
    simpa [createTurn] using h
  · exact appendDocument_validation.2.1 (createTurn "user") ['r'] "exe" [1] (by decide)

/-- C5: when the transport closes without any `MessageStop`, the consumer
reports a `TransportError` rather than completing silently, and every delta
text emitted before the close stays available, none discarded. -/
theorem close_without_stop_reports_transport_error :
    ∀ evs : List Event, sawStop evs = false →
      (consumeClosedStream evs).2 = some Err.transportError
      ∧ (consumeClosedStream evs).1 = consumeStream evs
      ∧ ((consumeClosedStream evs).1).filterMap deltaOf
          = evs.filterMap Event.contentBlockDelta := by
  intro evs h
  refine ⟨by simp [consumeClosedStream, h], rfl, ?_⟩
  simpa [consumeClosedStream, emittedTexts] using emittedTexts_eq evs

/-- Witness for C5: a stream of a start event and one delta, then closed. -/
theorem close_without_stop_witness :
    sawStop [Event.start "assistant", Event.delta "Hel"] = false
    ∧ (consumeClosedStream [Event.start "assistant", Event.delta "Hel"]).2
        = some Err.transportError
    ∧ ((consumeClosedStream [Event.start "assistant", Event.delta "Hel"]).1).filterMap
        deltaOf = ["Hel"] := by
  refine ⟨by decide, ?_, ?_⟩
  · exact (close_without_stop_reports_transport_error _ (by decide)).1
  · rw [(close_without_stop_reports_transport_error
      [Event.start "assistant", Event.delta "Hel"] (by decide)).2.2]
    decide

/-- C6: the recorded usage, latency, stop reason, and emitted text are the
same whether `Metadata` arrives just before or just after `MessageStop`; a
metadata payload with both fields present records the three token counts and
the latency; a payload with both fields absent is consumed without any
output and without error. -/
theorem metadata_order_tolerated :
    (∀ (pre post : List Event) (m : MetadataPayload) (s : String),
      usageRecords (pre ++ Event.meta m :: Event.stop s :: post)
        = usageRecords (pre ++ Event.stop s :: Event.meta m :: post)
      ∧ latencyRecords (pre ++ Event.meta m :: Event.stop s :: post)
        = latencyRecords (pre ++ Event.stop s :: Event.meta m :: post)
      ∧ stopRecords (pre ++ Event.meta m :: Event.stop s :: post)
        = stopRecords (pre ++ Event.stop s :: Event.meta m :: post)
      ∧ emittedTexts (pre ++ Event.meta m :: Event.stop s :: post)
        = emittedTexts (pre ++ Event.stop s :: Event.meta m :: post))
    ∧ (∀ (u : TokenUsage) (mt : Metrics),
      processMetadata ⟨some u, some mt⟩
        = [Output.usage u.inputTokens u.outputTokens u.totalTokens,
           Output.latency mt.latencyMs])
    ∧ (∀ u : TokenUsage,
      processMetadata ⟨some u, none⟩
        = [Output.usage u.inputTokens u.outputTokens u.totalTokens])
    ∧ (∀ mt : Metrics,
      processMetadata ⟨none, some mt⟩ = [Output.latency mt.latencyMs])
    ∧ (∀ pre post : List Event,
      consumeStream (pre ++ Event.meta ⟨none, none⟩ :: post)
        = consumeStream (pre ++ post)) := by
  refine ⟨?_, fun u mt => rfl, fun u => rfl, fun mt => rfl, ?_⟩
  · intro pre post m s
    refine ⟨?_, ?_, ?_, ?_⟩ <;>
      simp [usageRecords, latencyRecords, stopRecords, emittedTexts,
        consumeStream_append, consumeStream, processEvent_meta,
        processEvent_stopEvent, List.filterMap_append, usageOf, latencyOf,
        stopOf, deltaOf, stopOf_processMetadata, deltaOf_processMetadata]
  · intro pre post
    simp [consumeStream_append, consumeStream, processEvent_meta,
      processMetadata]

/-- C7: a request reads the turn without changing it — `requestOnce` hands
the turn back exactly as given — and a follow-up question appended between
requests yields a request whose message content is the previous content plus
the new text block. -/
theorem turn_readonly_during_request :
    (∀ (turn : ConversationTurn) (resp : ProviderResponse),
      (requestOnce turn resp).2 = turn)
    ∧ (∀ (mid : String) (sys : List String) (turn : ConversationTurn)
        (q : String) (cfg : InferenceConfig),
      buildConverseRequest mid sys (appendText turn q) cfg
        = { modelId := mid, system := sys,
            messages := [{ turn with
              content := turn.content ++ [ContentBlock.text q] }],
            inferenceConfig := cfg }) :=
  ⟨fun _ _ => rfl, fun _ _ _ _ _ => rfl⟩

/-- C8: with the notebook's `max_attempts = 1` configuration the client makes
exactly one attempt per request, and whatever error that attempt raises is
surfaced to the caller unchanged — zero implicit retries. -/
theorem single_attempt_no_retries :
    (∀ attempt : Nat → Except Err ProviderResponse,
      executeRequest clientConfig attempt = (attempt 0, 1))
    ∧ (∀ (attempt : Nat → Except Err ProviderResponse) (e : Err),
      attempt 0 = Except.error e →
      executeRequest clientConfig attempt = (Except.error e, 1)) := by
  constructor
  · intro attempt
    rfl
  · intro attempt e h
    simp [executeRequest, clientConfig, runAttempts, h]

/-- Witness for C8: a provider error on the single attempt is surfaced. -/
theorem single_attempt_witness :
    executeRequest clientConfig (fun _ => Except.error Err.providerError)
      = (Except.error Err.providerError, 1) :=
  single_attempt_no_retries.2 (fun _ => Except.error Err.providerError)
    Err.providerError rfl

/-- C9: the document name attached for a fetched report equals the last
'/'-separated segment of the URL truncated at its first '.', as on the
Amazon annual-report URL. -/
theorem report_name_from_url :
    (∀ url : List Char,
      fileName url
        = ((splitOnChar '/' url).getLastD []).takeWhile (fun c => c ≠ '.'))
    ∧ fileName ("https://s2.q4cdn.com/299287126/files/doc_financials/2025/ar/Amazon-2024-Annual-Report.pdf".toList)
        = "Amazon-2024-Annual-Report".toList
    ∧ (∀ (url : List Char) (bytes : List Nat),
      reportBlock url bytes
        = ContentBlock.document ⟨fileName url, "pdf", bytes⟩) := by
  refine ⟨fun url => ?_, by decide, fun url bytes => rfl⟩
  exact splitOnChar_headD '.' ((splitOnChar '/' url).getLastD [])

/-- C10: each event is run through the four key checks independently and in
the source's fixed order, so an event carrying several recognized keys
produces every matching output in that order, and an event carrying none of
the four keys is skipped silently. -/
theorem event_dispatch_nonexclusive :
    (∀ (r t s : String) (m : MetadataPayload),
      processEvent ⟨some r, some t, some s, some m⟩
        = [Output.role r, Output.delta t, Output.stop s] ++ processMetadata m)
    ∧ processEvent ⟨none, none, none, none⟩ = []
    ∧ (∀ pre post : List Event,
      consumeStream (pre ++ (⟨none, none, none, none⟩ : Event) :: post)
        = consumeStream (pre ++ post)) := by
  refine ⟨fun r t s m => rfl, rfl, ?_⟩
  intro pre post
  simp [consumeStream_append, consumeStream, processEvent]

end Nova
